import Mathlib

/-!
Shallow embedding of the `pestras/micro-nats` subject-dispatch pipeline
(`src/unnamed/part_000`): the subject registry populated by the `SUBJECT`
decorator, the `NatsMsg` envelope, the per-subscription dispatch loop
`manageSubscrption` (quota check, hook chain, handler invocation, response
and error signalling), and the `MicroNats` singleton constructor.

Hook and handler bodies are modelled by their observable outcome (the value
they return or resolve to, or that they throw); the dispatch loop's
side effects (log lines, responses published to the reply target, hook and
handler invocations) are recorded as an event trace.
-/

namespace MicroNats

/-- JSON-shaped values: what the JSON codec decodes payloads to and what the
pipeline encodes into responses. -/
inductive Json where
  | null
  | bool (b : Bool)
  | num (n : Int)
  | str (s : String)
  | arr (elems : List Json)
  | obj (fields : List (String × Json))

/-- JavaScript truthiness of a JSON-shaped value (`if (ret)`, `!passed`,
the `service[hook] ? ... : ...` ternary). Objects and arrays are always
truthy; `null`, `false`, `0` and the empty string are falsy. -/
def Json.truthy : Json → Bool
  | .null => false
  | .bool b => b
  | .num n => decide (n ≠ 0)
  | .str s => decide (s ≠ "")
  | .arr _ => true
  | .obj _ => true

/-- Observable outcome of calling a hook or handler function:
`sync v` — returned the plain (non-thenable) value `v`;
`promise v` — returned a promise that resolves to `v` (so `ret` is truthy
and `ret.then` is a function);
`throws` — threw synchronously or returned a rejecting promise (both land in
the surrounding `catch`). A function body returning nothing behaves as
`sync Json.null` (both are falsy non-thenables). -/
inductive CallRet where
  | sync (v : Json)
  | promise (v : Json)
  | throws

/-- A property of a service object looked up by name, as JavaScript sees it:
absent (`undefined`), a callable function (with its outcome), or a defined
non-callable value. -/
inductive Member where
  | undef
  | func (ret : CallRet)
  | val (v : Json)

/-- Truthiness of a property value: `undefined` is falsy, functions are
truthy, other values by JSON truthiness. -/
def Member.truthy : Member → Bool
  | .undef => false
  | .func _ => true
  | .val v => v.truthy

/-- `typeof x === "function"`. -/
def Member.isFunc : Member → Bool
  | .func _ => true
  | _ => false

/-- `x === undefined`. -/
def Member.isUndef : Member → Bool
  | .undef => true
  | _ => false

/-- A service object: a finite table of named properties; any name not in
the table reads as `undefined`. -/
structure Service where
  members : List (String × Member)

def Service.get (s : Service) (name : String) : Member :=
  match s.members.lookup name with
  | some m => m
  | none => Member.undef

/-- An inbound bus message as consumed by `manageSubscrption`, with its
payload already decoded (`NatsMsg` construction at byte level, including
decode failure, is modelled separately by `NatsMsg.make`). -/
structure Msg where
  subject : String
  reply : Option String
  json : Json

/-- Observable side effects of the dispatch pipeline, in order: log lines,
responses published toward the reply target (`sent` records whether a reply
target exists, which is what the underlying `msg.respond` returns), and the
hook/handler invocations themselves (`onLocal` tells whether the sub-service
or the primary service member was called). -/
inductive Event where
  | logInfo (s : String)
  | logWarn (s : String)
  | logError (ctx : String)
  | respond (payload : Json) (sent : Bool)
  | callHook (onLocal : Bool) (name : String)
  | callHandler (name : String)

def Event.isCall : Event → Bool
  | .callHook _ _ => true
  | .callHandler _ => true
  | _ => false

def Event.isRespond : Event → Bool
  | .respond _ _ => true
  | _ => false

def Event.isErrorLog : Event → Bool
  | .logError _ => true
  | _ => false

/-- The structured error payload `{ error: { message: s } }`. -/
def errPayload (message : String) : Json :=
  Json.obj [("error", Json.obj [("message", Json.str message)])]

/-- `{ error: { message: 'blocked by hook: ' + hook } }`. -/
def blockedPayload (hook : String) : Json :=
  errPayload ("blocked by hook: " ++ hook)

/-- `{ error: { message: 'hook unhandled error' + hook } }` (no separator in
the source). -/
def hookErrPayload (hook : String) : Json :=
  errPayload ("hook unhandled error" ++ hook)

/-- One iteration of the hook loop in `manageSubscrption` for hook name
`hook`: the two resolution guards, then the truthiness-ternary invocation
`service[hook] ? service[hook](...) : Micro.service[hook](...)`, then the
result interpretation, with the surrounding `try/catch` folded in. Returns
the emitted events and whether the chain continues (`false` models the
`return` statements). Calling a selected member that is not a function
throws a TypeError, which the `catch` turns into the same
"hook unhandled error" signalling as a hook exception. -/
def hookStep (hook : String) (service primary : Service) (msg : Msg) :
    List Event × Bool :=
  let lm := service.get hook
  let pm := primary.get hook
  if lm.isUndef && pm.isUndef then
    ([Event.respond (hookErrPayload hook) msg.reply.isSome,
      Event.logWarn ("Hook not found: " ++ hook ++ "!")], false)
  else if !lm.isFunc && !pm.isFunc then
    ([Event.respond (hookErrPayload hook) msg.reply.isSome,
      Event.logWarn ("invalid hook type: " ++ hook ++ "!")], false)
  else
    match if lm.truthy then lm else pm with
    | Member.func ret =>
      match ret with
      | CallRet.sync v | CallRet.promise v =>
        if v.truthy then ([Event.callHook lm.truthy hook], true)
        else ([Event.callHook lm.truthy hook,
               Event.respond (blockedPayload hook) msg.reply.isSome,
               Event.logInfo ("subject " ++ msg.subject ++ " blocked by hook: " ++ hook)],
              false)
      | CallRet.throws =>
        ([Event.callHook lm.truthy hook,
          Event.respond (hookErrPayload hook) msg.reply.isSome,
          Event.logError ""], false)
    | _ =>
      ([Event.respond (hookErrPayload hook) msg.reply.isSome,
        Event.logError ""], false)

/-- The hook loop: runs hooks in declared order, short-circuiting when a
step signals stop. The second component is `true` iff every hook passed
(so the handler runs next). An empty list is a pass-through. -/
def runHooks (hooks : List String) (service primary : Service) (msg : Msg) :
    List Event × Bool :=
  match hooks with
  | [] => ([], true)
  | hook :: rest =>
    let step := hookStep hook service primary msg
    if step.2 then
      let tail := runHooks rest service primary msg
      (step.1 ++ tail.1, tail.2)
    else (step.1, false)

/-- The handler invocation `service[config.key](natsMsg, MicroNats.Client,
config.meta)` with its `try/catch`: a throwing (or rejecting) handler — and
likewise a non-callable handler property, whose call throws — responds
`{ error: { message: 'unknownError' } }` and logs the error with subject and
method context; on clean completion the loop logs "subject ... ended". -/
def runHandler (key : String) (service : Service) (msg : Msg) : List Event :=
  match service.get key with
  | Member.func ret =>
    match ret with
    | CallRet.sync _ | CallRet.promise _ =>
      [Event.callHandler key,
       Event.logInfo ("subject " ++ msg.subject ++ " ended")]
    | CallRet.throws =>
      [Event.callHandler key,
       Event.respond (errPayload "unknownError") msg.reply.isSome,
       Event.logError ("subject: " ++ msg.subject ++ ", method: " ++ key)]
  | _ =>
    [Event.respond (errPayload "unknownError") msg.reply.isSome,
     Event.logError ("subject: " ++ msg.subject ++ ", method: " ++ key)]

/-- The stored binding for a subject (`SubjectFullConfig`): what the
`SUBJECT` decorator writes into the registry. `service` is an opaque
reference to the owning service class (`target.constructor`); `options` is
the opaque subscription-options passthrough (`0` standing for the `{}`
default). Note the decorator's object literal has no `meta` key, so the
stored `meta` is always absent. -/
structure SubjectFullConfig where
  service : Nat
  options : Nat
  hooks : List String
  dataQuota : Nat
  key : String
  meta : Option Json

/-- One body of the `for await (let msg of sub)` loop: entry log, the quota
check `config.dataQuota && config.dataQuota < sub.getProcessed()` (with
`processed` the value `sub.getProcessed()` reports for this message), the
hook chain, then the handler. The boolean is `true` iff the loop goes on to
the next message; every failure path before the handler executes `return`,
which is modelled as `false`. -/
def handleMsg (config : SubjectFullConfig) (service primary : Service)
    (processed : Nat) (msg : Msg) : List Event × Bool :=
  let entry := Event.logInfo ("subject called: " ++ msg.subject)
  if config.dataQuota ≠ 0 ∧ config.dataQuota < processed then
    ([entry,
      Event.respond (Json.str "msg body quota exceeded") msg.reply.isSome,
      Event.logWarn "msg body quota exceeded"], false)
  else
    let hk := runHooks config.hooks service primary msg
    if hk.2 then (entry :: (hk.1 ++ runHandler config.key service msg), true)
    else (entry :: hk.1, false)

/-- The whole subscription loop `manageSubscrption` over the stream of
messages it would be offered, each paired with the `sub.getProcessed()`
value observed at its quota check: once an iteration returns (`handleMsg`
yields `false`), no later message of the stream is consumed. -/
def manageSubscrption (config : SubjectFullConfig) (service primary : Service) :
    List (Nat × Msg) → List Event
  | [] => []
  | (processed, msg) :: rest =>
    let r := handleMsg config service primary processed msg
    if r.2 then r.1 ++ manageSubscrption config service primary rest
    else r.1

/-- The `SubjectConfig` argument of the `SUBJECT` decorator; every field is
optional (`undefined` when absent). -/
structure SubjectConfig where
  hooks : Option (List String)
  dataQuota : Option Nat
  options : Option Nat
  meta : Option Json

/-- The process-wide `serviceSubjects` table: a single JavaScript object
keyed by subject string, kept in insertion order. -/
abbrev Registry := List (String × SubjectFullConfig)

/-- JavaScript property assignment `serviceSubjects[subject] = v`:
overwrites the entry for the key when present, otherwise appends it. -/
def setKey (reg : Registry) (k : String) (v : SubjectFullConfig) : Registry :=
  if reg.any (fun p => p.1 == k) then
    reg.map (fun p => if p.1 == k then (k, v) else p)
  else reg ++ [(k, v)]

/-- The object literal the `SUBJECT` decorator stores: `options` and `hooks`
default through `||` (arrays and objects are always truthy, so this is just
an absence default), while `dataQuota: config.dataQuota || 1024 * 100` also
replaces a supplied `0` (the only falsy number modelled), and `meta` is not
stored at all. -/
def storedConfig (config : SubjectConfig) (service : Nat) (key : String) :
    SubjectFullConfig :=
  { service := service
    options := config.options.getD 0
    hooks := config.hooks.getD []
    dataQuota :=
      match config.dataQuota with
      | some q => if q = 0 then 1024 * 100 else q
      | none => 1024 * 100
    key := key
    meta := none }

/-- The `SUBJECT` decorator applied to method `key` of service class
`service`: writes the binding into the registry. -/
def SUBJECT (subject : String) (config : SubjectConfig) (service : Nat)
    (key : String) (reg : Registry) : Registry :=
  setKey reg subject (storedConfig config service key)

/-- A JSON-shaped codec over raw payload bytes; `decode` models
`JSONCodec().decode`, which throws (`Except.error`) on payloads that are not
valid JSON. -/
structure Codec where
  decode : List Nat → Except String Json

/-- A raw bus message as handed to the `NatsMsg` constructor. -/
structure RawMsg where
  sid : Nat
  subject : String
  reply : Option String
  data : List Nat

/-- The fields a fully constructed `NatsMsg` exposes. -/
structure NatsMsgFields where
  sid : Nat
  subject : String
  reply : Option String
  data : List Nat
  json : Json

/-- The `NatsMsg` constructor: `this.json = this.jc.decode(msg.data)` with
no `try/catch` around it, so a decode failure propagates out of the
constructor (`Except.error`) and no envelope is produced. -/
def NatsMsg.make (jc : Codec) (m : RawMsg) : Except String NatsMsgFields :=
  match jc.decode m.data with
  | Except.ok j => Except.ok ⟨m.sid, m.subject, m.reply, m.data, j⟩
  | Except.error e => Except.error e

/-- Modelled from the spec: the JSON-shaped codec itself is an external
collaborator (the nats library's `JSONCodec`, not under src/). Per the spec
its decode can fail ("decode failure"); JSON parsing rejects the empty
payload, which is the only failing input used below — other payloads are
modelled as decoding successfully. -/
def jsonCodecModel : Codec :=
  ⟨fun bs =>
    if bs = [] then Except.error "Unexpected end of JSON input"
    else Except.ok Json.null⟩

/-- The `MicroNats` plugin instance: the connection configuration captured
by the constructor (modelled by its servers string), the nats client set by
`init` (opaque, absent until connected) and the subscription map. -/
structure Inst where
  conf : String
  client : Option Nat
  subs : List (String × Nat)

/-- The static slot `MicroNats._instance`. -/
structure GlobalState where
  inst : Option Inst

/-- The `MicroNats` constructor: when `_instance` is already set it returns
that instance and leaves the slot untouched (the new configuration is
discarded); otherwise it records the freshly built instance. -/
def construct (conf : String) (st : GlobalState) : Inst × GlobalState :=
  match st.inst with
  | some i => (i, st)
  | none =>
    let i : Inst := ⟨conf, none, []⟩
    (i, ⟨some i⟩)

/-- The static accessor `MicroNats.Client` (`_instance?.client`). -/
def ClientAccessor (st : GlobalState) : Option Nat :=
  match st.inst with
  | some i => i.client
  | none => none

/-- The static accessor `MicroNats.Subscriptions` (`_instance?.subs`). -/
def SubscriptionsAccessor (st : GlobalState) : Option (List (String × Nat)) :=
  match st.inst with
  | some i => some i.subs
  | none => none

end MicroNats

namespace MicroNats

/-! Helper lemmas about the registry and the hook chain. -/

/-- JavaScript object assignment stores the value under the key: looking the
key up afterwards yields exactly the assigned value. -/
theorem lookup_setKey (k : String) (v : SubjectFullConfig) :
    ∀ reg : Registry, (setKey reg k v).lookup k = some v := by
  intro reg
  induction reg with
  | nil => simp [setKey, List.lookup]
  | cons hd tl ih =>
    rcases hd with ⟨a, b⟩
    rw [setKey]
    by_cases hhd : a = k
    · subst hhd
      rw [if_pos (by simp)]
      rw [List.map_cons]
      simp [List.lookup_cons]
    · have hak : (a == k) = false := beq_false_of_ne hhd
      have hka : (k == a) = false := beq_false_of_ne (Ne.symm hhd)
      by_cases htl : tl.any (fun p => p.1 == k) = true
      · rw [if_pos (by simp [htl])]
        have h2 : setKey tl k v = tl.map (fun p => if p.1 == k then (k, v) else p) := by
          rw [setKey, if_pos htl]
        rw [List.map_cons]
        simp only [hak, Bool.false_eq_true, if_false]
        rw [List.lookup_cons, hka, ← h2]
        exact ih
      · rw [if_neg (by simp [htl, hak])]
        rw [List.cons_append, List.lookup_cons, hka]
        have h2 : setKey tl k v = tl ++ [(k, v)] := by
          rw [setKey, if_neg htl]
        rw [← h2]
        exact ih

/-- A call outcome that the chain interprets as a pass: a truthy plain value
or a promise resolving to a truthy value. -/
def CallRet.passes : CallRet → Bool
  | .sync v => v.truthy
  | .promise v => v.truthy
  | .throws => false

/-- How the hook loop interprets the outcome of the function it invoked
(`onLocal` flags which owner's function was called): restates the inner part
of `hookStep` for use in lemma statements. -/
def interpret (onLocal : Bool) (h : String) (m : Msg) : CallRet → List Event × Bool
  | .sync v | .promise v =>
    if v.truthy then ([Event.callHook onLocal h], true)
    else ([Event.callHook onLocal h,
           Event.respond (blockedPayload h) m.reply.isSome,
           Event.logInfo ("subject " ++ m.subject ++ " blocked by hook: " ++ h)],
          false)
  | .throws =>
    ([Event.callHook onLocal h,
      Event.respond (hookErrPayload h) m.reply.isSome,
      Event.logError ""], false)

/-- When the local owner has a callable member for the hook, the guards are
bypassed and the local function is the one invoked. -/
theorem hookStep_local_func (h : String) (s p : Service) (m : Msg) (ret : CallRet)
    (hf : s.get h = Member.func ret) :
    hookStep h s p m = interpret true h m ret := by
  cases ret <;>
    simp [hookStep, interpret, hf, Member.isUndef, Member.isFunc, Member.truthy]

/-- When the local member is falsy (absent or a falsy value) and the primary
has a callable member, the primary function is the one invoked. -/
theorem hookStep_fallback (h : String) (s p : Service) (m : Msg) (ret : CallRet)
    (hp : p.get h = Member.func ret) (hl : (s.get h).truthy = false) :
    hookStep h s p m = interpret false h m ret := by
  cases hls : s.get h with
  | undef =>
    cases ret <;>
      simp [hookStep, interpret, hls, hp, Member.isUndef, Member.isFunc, Member.truthy]
  | func r => rw [hls] at hl; simp [Member.truthy] at hl
  | val v =>
    rw [hls] at hl
    simp only [Member.truthy] at hl
    cases ret <;>
      simp [hookStep, interpret, hls, hp, Member.isUndef, Member.isFunc, Member.truthy, hl]

/-- When the local member is a truthy non-callable value and the primary has
a callable one, the guards pass but the invocation calls the local value:
the TypeError is caught as a hook unhandled error and nothing is invoked. -/
theorem hookStep_truthy_val (h : String) (s p : Service) (m : Msg) (v : Json)
    (ret : CallRet) (hv : s.get h = Member.val v) (htv : v.truthy = true)
    (hp : p.get h = Member.func ret) :
    hookStep h s p m =
      ([Event.respond (hookErrPayload h) m.reply.isSome,
        Event.logError ""], false) := by
  simp [hookStep, hv, hp, Member.isUndef, Member.isFunc, Member.truthy, htv]

/-- Every invocation event a hook step emits names that step's hook, and its
flag records the truthiness of the local member (the invocation ternary). -/
theorem callHook_mem_hookStep (h n : String) (b : Bool) (s p : Service) (m : Msg)
    (hmem : Event.callHook b n ∈ (hookStep h s p m).1) :
    n = h ∧ b = (s.get h).truthy := by
  cases hls : s.get h with
  | func ret =>
    rw [hookStep_local_func h s p m ret hls] at hmem
    cases ret with
    | sync v => by_cases hv : v.truthy = true <;> simp_all [interpret, Member.truthy]
    | promise v => by_cases hv : v.truthy = true <;> simp_all [interpret, Member.truthy]
    | throws => simp_all [interpret, Member.truthy]
  | undef =>
    cases hps : p.get h with
    | func ret =>
      rw [hookStep_fallback h s p m ret hps (by rw [hls]; rfl)] at hmem
      cases ret with
      | sync v => by_cases hv : v.truthy = true <;> simp_all [interpret, Member.truthy]
      | promise v => by_cases hv : v.truthy = true <;> simp_all [interpret, Member.truthy]
      | throws => simp_all [interpret, Member.truthy]
    | undef => simp [hookStep, hls, hps, Member.isUndef] at hmem
    | val w => simp [hookStep, hls, hps, Member.isUndef, Member.isFunc] at hmem
  | val v =>
    by_cases htv : v.truthy = true
    · cases hps : p.get h with
      | func ret =>
        rw [hookStep_truthy_val h s p m v ret hls htv hps] at hmem
        simp at hmem
      | undef => simp [hookStep, hls, hps, Member.isUndef, Member.isFunc] at hmem
      | val w => simp [hookStep, hls, hps, Member.isUndef, Member.isFunc] at hmem
    · cases hps : p.get h with
      | func ret =>
        rw [hookStep_fallback h s p m ret hps
              (by rw [hls]; simpa [Member.truthy] using htv)] at hmem
        cases ret with
        | sync w => by_cases hw : w.truthy = true <;> simp_all [interpret, Member.truthy]
        | promise w => by_cases hw : w.truthy = true <;> simp_all [interpret, Member.truthy]
        | throws => simp_all [interpret, Member.truthy]
      | undef => simp [hookStep, hls, hps, Member.isUndef, Member.isFunc] at hmem
      | val w => simp [hookStep, hls, hps, Member.isUndef, Member.isFunc] at hmem

/-- A hook step that lets the chain continue emitted exactly the invocation
event and nothing else. -/
theorem hookStep_pass (h : String) (s p : Service) (m : Msg)
    (hp : (hookStep h s p m).2 = true) :
    (hookStep h s p m).1 = [Event.callHook (s.get h).truthy h] := by
  cases hls : s.get h with
  | func ret =>
    rw [hookStep_local_func h s p m ret hls] at hp ⊢
    cases ret with
    | sync v => by_cases hv : v.truthy = true <;> simp_all [interpret, Member.truthy]
    | promise v => by_cases hv : v.truthy = true <;> simp_all [interpret, Member.truthy]
    | throws => simp_all [interpret]
  | undef =>
    cases hps : p.get h with
    | func ret =>
      rw [hookStep_fallback h s p m ret hps (by rw [hls]; rfl)] at hp ⊢
      cases ret with
      | sync v => by_cases hv : v.truthy = true <;> simp_all [interpret, Member.truthy]
      | promise v => by_cases hv : v.truthy = true <;> simp_all [interpret, Member.truthy]
      | throws => simp_all [interpret]
    | undef => simp [hookStep, hls, hps, Member.isUndef] at hp
    | val w => simp [hookStep, hls, hps, Member.isUndef, Member.isFunc] at hp
  | val v =>
    by_cases htv : v.truthy = true
    · cases hps : p.get h with
      | func ret =>
        rw [hookStep_truthy_val h s p m v ret hls htv hps] at hp
        simp at hp
      | undef => simp [hookStep, hls, hps, Member.isUndef, Member.isFunc] at hp
      | val w => simp [hookStep, hls, hps, Member.isUndef, Member.isFunc] at hp
    · cases hps : p.get h with
      | func ret =>
        rw [hookStep_fallback h s p m ret hps
              (by rw [hls]; simpa [Member.truthy] using htv)] at hp ⊢
        cases ret with
        | sync w => by_cases hw : w.truthy = true <;> simp_all [interpret, Member.truthy]
        | promise w => by_cases hw : w.truthy = true <;> simp_all [interpret, Member.truthy]
        | throws => simp_all [interpret]
      | undef => simp [hookStep, hls, hps, Member.isUndef, Member.isFunc] at hp
      | val w => simp [hookStep, hls, hps, Member.isUndef, Member.isFunc] at hp

/-- Every invocation event of a chain names one of its hooks, with the flag
recording local-member truthiness for that name. -/
theorem callHook_mem_runHooks (hooks : List String) (s p : Service) (m : Msg)
    (b : Bool) (n : String)
    (hmem : Event.callHook b n ∈ (runHooks hooks s p m).1) :
    n ∈ hooks ∧ b = (s.get n).truthy := by
  induction hooks with
  | nil => simp [runHooks] at hmem
  | cons h rest ih =>
    rcases hstep : hookStep h s p m with ⟨evs, ok⟩
    cases ok with
    | true =>
      simp only [runHooks, hstep] at hmem
      simp at hmem
      rcases hmem with hmem | hmem
      · have := callHook_mem_hookStep h n b s p m (by rw [hstep]; exact hmem)
        exact ⟨by simp [this.1], by rw [this.1]; exact this.2⟩
      · obtain ⟨h1, h2⟩ := ih hmem
        exact ⟨by simp [h1], h2⟩
    | false =>
      simp only [runHooks, hstep] at hmem
      simp at hmem
      have := callHook_mem_hookStep h n b s p m (by rw [hstep]; exact hmem)
      exact ⟨by simp [this.1], by rw [this.1]; exact this.2⟩

/-- A chain in which every hook passed emitted no response and no error log:
only invocation events. -/
theorem runHooks_pass_events (hooks : List String) (s p : Service) (m : Msg)
    (hok : (runHooks hooks s p m).2 = true) :
    (runHooks hooks s p m).1.filter Event.isRespond = []
    ∧ (runHooks hooks s p m).1.filter Event.isErrorLog = [] := by
  induction hooks with
  | nil => simp [runHooks]
  | cons h rest ih =>
    rcases hstep : hookStep h s p m with ⟨evs, ok⟩
    cases ok with
    | true =>
      have hevs : evs = [Event.callHook (s.get h).truthy h] := by
        have := hookStep_pass h s p m (by rw [hstep])
        rw [hstep] at this
        exact this
      simp only [runHooks, hstep] at hok ⊢
      simp only [if_true] at hok ⊢
      obtain ⟨ih1, ih2⟩ := ih hok
      simp [hevs, List.filter_append, ih1, ih2, Event.isRespond, Event.isErrorLog]
    | false =>
      simp [runHooks, hstep] at hok

/-- When the quota is not exceeded, dispatch proceeds to the hook chain and
(on pass) the handler. -/
theorem handleMsg_no_quota (config : SubjectFullConfig) (s p : Service)
    (processed : Nat) (m : Msg)
    (hq : config.dataQuota = 0 ∨ processed ≤ config.dataQuota) :
    handleMsg config s p processed m =
      (if (runHooks config.hooks s p m).2 then
        (Event.logInfo ("subject called: " ++ m.subject)
          :: ((runHooks config.hooks s p m).1 ++ runHandler config.key s m), true)
      else
        (Event.logInfo ("subject called: " ++ m.subject)
          :: (runHooks config.hooks s p m).1, false)) := by
  have hnq : ¬(config.dataQuota ≠ 0 ∧ config.dataQuota < processed) := by
    rcases hq with h | h <;> omega
  simp only [handleMsg, if_neg hnq]

end MicroNats

namespace MicroNats

/-! The claims. -/

def c1Config : SubjectFullConfig := ⟨0, 0, [], 100, "go", none⟩

def c1Service : Service := ⟨[("go", Member.func (CallRet.sync Json.null))]⟩

def c1Stream : List (Nat × Msg) :=
  [(150, ⟨"user.insert", some "reply.1", Json.null⟩),
   (150, ⟨"user.list", some "reply.2", Json.null⟩)]

/-- Claim C1 (code divergence): the claim says a per-message failure never
terminates the subscription's message-processing loop. In the code every
such failure path ends in a `return` inside the `for await` loop; evaluated
on a stream whose first message exceeds the quota, the loop emits only the
first message's events and never consumes the second message. -/
theorem c1_failure_terminates_loop :
    manageSubscrption c1Config c1Service ⟨[]⟩ c1Stream
      = [Event.logInfo "subject called: user.insert",
         Event.respond (Json.str "msg body quota exceeded") true,
         Event.logWarn "msg body quota exceeded"]
    ∧ Event.logInfo "subject called: user.list" ∉
        manageSubscrption c1Config c1Service ⟨[]⟩ c1Stream := by
  have h : manageSubscrption c1Config c1Service ⟨[]⟩ c1Stream
      = [Event.logInfo "subject called: user.insert",
         Event.respond (Json.str "msg body quota exceeded") true,
         Event.logWarn "msg body quota exceeded"] := rfl
  rw [h]
  exact ⟨rfl, by simp⟩

def c2Config : SubjectFullConfig := ⟨0, 0, ["h1"], 100, "go", none⟩

def c2Service : Service :=
  ⟨[("h1", Member.func (CallRet.sync (Json.bool true))),
    ("go", Member.func (CallRet.sync Json.null))]⟩

def c2Stream : List (Nat × Msg) :=
  [(150, ⟨"user.insert", some "reply.1", Json.null⟩),
   (10, ⟨"user.list", some "reply.2", Json.null⟩)]

/-- Claim C2 (code divergence): with `dataQuota = 100` and the subscription's
processed counter at 150, the dispatch does halt before hooks and handler
and does send the plain-string quota response toward the reply target — but
the `return` then terminates the loop, so the subscription is NOT active for
the following message: the second message of the stream is never consumed. -/
theorem c2_quota_response_then_termination :
    manageSubscrption c2Config c2Service ⟨[]⟩ c2Stream
      = [Event.logInfo "subject called: user.insert",
         Event.respond (Json.str "msg body quota exceeded") true,
         Event.logWarn "msg body quota exceeded"]
    ∧ (∀ (b : Bool) (n : String),
        Event.callHook b n ∉ manageSubscrption c2Config c2Service ⟨[]⟩ c2Stream)
    ∧ Event.callHandler "go" ∉ manageSubscrption c2Config c2Service ⟨[]⟩ c2Stream
    ∧ Event.logInfo "subject called: user.list" ∉
        manageSubscrption c2Config c2Service ⟨[]⟩ c2Stream := by
  have h : manageSubscrption c2Config c2Service ⟨[]⟩ c2Stream
      = [Event.logInfo "subject called: user.insert",
         Event.respond (Json.str "msg body quota exceeded") true,
         Event.logWarn "msg body quota exceeded"] := rfl
  rw [h]
  refine ⟨rfl, ?_, ?_, ?_⟩ <;> simp

/-- Claim C3: for a chain `[h1, h2, h3]` in which `h1` passes and `h2`
resolves to false, the evaluator runs `h1` then `h2` in that order, never
runs `h3`, never runs the handler, and sends exactly one response:
blocked by hook `h2`. -/
theorem c3_hook_chain_short_circuit (config : SubjectFullConfig)
    (s p : Service) (processed : Nat) (m : Msg) (h1 h2 h3 : String)
    (r1 : CallRet)
    (hq : config.dataQuota = 0 ∨ processed ≤ config.dataQuota)
    (hhooks : config.hooks = [h1, h2, h3])
    (hh1 : s.get h1 = Member.func r1) (hp1 : r1.passes = true)
    (hh2 : s.get h2 = Member.func (CallRet.promise (Json.bool false))) :
    (handleMsg config s p processed m).1.filter Event.isCall
      = [Event.callHook true h1, Event.callHook true h2]
    ∧ (handleMsg config s p processed m).1.filter Event.isRespond
      = [Event.respond (blockedPayload h2) m.reply.isSome] := by
  have hstep1 : hookStep h1 s p m = ([Event.callHook true h1], true) := by
    rw [hookStep_local_func h1 s p m r1 hh1]
    cases r1 with
    | sync v => simp_all [interpret, CallRet.passes]
    | promise v => simp_all [interpret, CallRet.passes]
    | throws => simp [CallRet.passes] at hp1
  have hstep2 : hookStep h2 s p m =
      ([Event.callHook true h2,
        Event.respond (blockedPayload h2) m.reply.isSome,
        Event.logInfo ("subject " ++ m.subject ++ " blocked by hook: " ++ h2)],
       false) := by
    rw [hookStep_local_func h2 s p m (CallRet.promise (Json.bool false)) hh2]
    simp [interpret, Json.truthy]
  rw [handleMsg_no_quota config s p processed m hq, hhooks]
  simp only [runHooks, hstep1, hstep2]
  simp [Event.isCall, Event.isRespond]

def c3Config : SubjectFullConfig := ⟨0, 0, ["h1", "h2", "h3"], 102400, "go", none⟩

def c3Service : Service :=
  ⟨[("h1", Member.func (CallRet.sync (Json.bool true))),
    ("h2", Member.func (CallRet.promise (Json.bool false))),
    ("h3", Member.func (CallRet.sync (Json.bool true))),
    ("go", Member.func (CallRet.sync Json.null))]⟩

def c3Msg : Msg := ⟨"user.insert", some "reply.1", Json.null⟩

/-- Claim C3, witness: the short-circuit theorem applied to a concrete
binding with hooks `[h1, h2, h3]`, `h1` returning true and `h2` resolving
to false. -/
theorem c3_hook_chain_short_circuit_witness :
    (c3Config.dataQuota = 0 ∨ 0 ≤ c3Config.dataQuota)
    ∧ c3Config.hooks = ["h1", "h2", "h3"]
    ∧ c3Service.get "h1" = Member.func (CallRet.sync (Json.bool true))
    ∧ (CallRet.sync (Json.bool true)).passes = true
    ∧ c3Service.get "h2" = Member.func (CallRet.promise (Json.bool false))
    ∧ ((handleMsg c3Config c3Service ⟨[]⟩ 0 c3Msg).1.filter Event.isCall
        = [Event.callHook true "h1", Event.callHook true "h2"]
      ∧ (handleMsg c3Config c3Service ⟨[]⟩ 0 c3Msg).1.filter Event.isRespond
        = [Event.respond (blockedPayload "h2") c3Msg.reply.isSome]) :=
  ⟨Or.inr (Nat.zero_le _), rfl, rfl, rfl, rfl,
    c3_hook_chain_short_circuit c3Config c3Service ⟨[]⟩ 0 c3Msg "h1" "h2" "h3"
      (CallRet.sync (Json.bool true)) (Or.inr (Nat.zero_le _)) rfl rfl rfl rfl⟩

/-- Claim C4 (code divergence): the claim says envelope construction never
raises even when the payload fails to decode. The constructor decodes with
no try/catch, so on a payload the JSON codec rejects (the empty payload)
construction propagates the decode error instead of yielding an envelope. -/
theorem c4_decode_failure_raises :
    NatsMsg.make jsonCodecModel ⟨1, "user.insert", some "reply.1", []⟩
      = Except.error "Unexpected end of JSON input" := rfl

def c5Service : Service := ⟨[("hk", Member.val (Json.str "x"))]⟩

def c5Primary : Service := ⟨[("hk", Member.func (CallRet.sync (Json.bool true)))]⟩

def c5Msg : Msg := ⟨"user.insert", some "reply.1", Json.null⟩

/-- Claim C5, counterexample: the local owner holds the truthy non-callable
value "x" under the hook name and the primary service holds a callable that
would pass — yet the primary's callable is never invoked (no invocation
event at all): the step responds a hook unhandled error and stops. -/
theorem c5_counterexample :
    Event.callHook false "hk" ∉ (hookStep "hk" c5Service c5Primary c5Msg).1
    ∧ hookStep "hk" c5Service c5Primary c5Msg
        = ([Event.respond (hookErrPayload "hk") true, Event.logError ""], false) := by
  refine ⟨?_, rfl⟩
  have h : (hookStep "hk" c5Service c5Primary c5Msg).1
      = [Event.respond (hookErrPayload "hk") true, Event.logError ""] := rfl
  rw [h]
  simp

/-- Claim C5 as amended: resolution checks the local owner first and falls
back to the primary's member when the local member is absent or falsy; but
when the local owner holds a truthy non-callable member of the name (even
with a callable on the primary), the invocation calls the local value, the
TypeError is caught as a hook unhandled error, and the primary's callable is
never invoked. -/
theorem c5_hook_resolution_amended (hk : String) (s p : Service) (m : Msg)
    (ret : CallRet) (hp : p.get hk = Member.func ret) :
    ((s.get hk).truthy = false →
        Event.callHook false hk ∈ (hookStep hk s p m).1)
    ∧ (∀ v : Json, s.get hk = Member.val v → v.truthy = true →
        (hookStep hk s p m).1
          = [Event.respond (hookErrPayload hk) m.reply.isSome, Event.logError ""]
        ∧ Event.callHook false hk ∉ (hookStep hk s p m).1) := by
  constructor
  · intro hl
    rw [hookStep_fallback hk s p m ret hp hl]
    cases ret with
    | sync v => by_cases hv : v.truthy = true <;> simp [interpret, hv]
    | promise v => by_cases hv : v.truthy = true <;> simp [interpret, hv]
    | throws => simp [interpret]
  · intro v hv htv
    have heq := hookStep_truthy_val hk s p m v ret hv htv hp
    rw [heq]
    exact ⟨rfl, by simp⟩

/-- Claim C5 as amended, witness: with no local member the primary's callable
is invoked (fallback on absence still holds). -/
theorem c5_hook_resolution_amended_witness :
    (⟨[("hk", Member.func (CallRet.sync (Json.bool true)))]⟩ : Service).get "hk"
      = Member.func (CallRet.sync (Json.bool true))
    ∧ ((((⟨[]⟩ : Service).get "hk").truthy = false →
        Event.callHook false "hk" ∈
          (hookStep "hk" ⟨[]⟩ ⟨[("hk", Member.func (CallRet.sync (Json.bool true)))]⟩ c5Msg).1)
      ∧ (∀ v : Json, (⟨[]⟩ : Service).get "hk" = Member.val v → v.truthy = true →
          (hookStep "hk" ⟨[]⟩ ⟨[("hk", Member.func (CallRet.sync (Json.bool true)))]⟩ c5Msg).1
            = [Event.respond (hookErrPayload "hk") c5Msg.reply.isSome, Event.logError ""]
          ∧ Event.callHook false "hk" ∉
              (hookStep "hk" ⟨[]⟩ ⟨[("hk", Member.func (CallRet.sync (Json.bool true)))]⟩ c5Msg).1)) :=
  ⟨rfl, c5_hook_resolution_amended "hk" ⟨[]⟩
      ⟨[("hk", Member.func (CallRet.sync (Json.bool true)))]⟩ c5Msg
      (CallRet.sync (Json.bool true)) rfl⟩

/-- Claim C6: when the quota admits the message, the hook chain passes and
the handler throws (or rejects), the dispatch logs exactly one error
carrying subject and method context, sends exactly one response shaped
unknownError (toward the reply target when one exists), and the loop goes on
to consume the remaining messages. -/
theorem c6_handler_throw_isolated (config : SubjectFullConfig) (s p : Service)
    (processed : Nat) (m : Msg)
    (hq : config.dataQuota = 0 ∨ processed ≤ config.dataQuota)
    (hpass : (runHooks config.hooks s p m).2 = true)
    (hthrow : s.get config.key = Member.func CallRet.throws) :
    (handleMsg config s p processed m).1.filter Event.isErrorLog
      = [Event.logError ("subject: " ++ m.subject ++ ", method: " ++ config.key)]
    ∧ (handleMsg config s p processed m).1.filter Event.isRespond
      = [Event.respond (errPayload "unknownError") m.reply.isSome]
    ∧ (handleMsg config s p processed m).2 = true
    ∧ ∀ rest : List (Nat × Msg),
        manageSubscrption config s p ((processed, m) :: rest)
          = (handleMsg config s p processed m).1
            ++ manageSubscrption config s p rest := by
  have hhandler : runHandler config.key s m =
      [Event.callHandler config.key,
       Event.respond (errPayload "unknownError") m.reply.isSome,
       Event.logError ("subject: " ++ m.subject ++ ", method: " ++ config.key)] := by
    simp [runHandler, hthrow]
  obtain ⟨hr1, hr2⟩ := runHooks_pass_events config.hooks s p m hpass
  rw [handleMsg_no_quota config s p processed m hq]
  rw [if_pos hpass]
  refine ⟨?_, ?_, rfl, ?_⟩
  · simp [List.filter_append, hhandler, hr2, Event.isErrorLog, Event.isRespond]
  · simp [List.filter_append, hhandler, hr1, Event.isRespond]
  · intro rest
    have h2 : (handleMsg config s p processed m).2 = true := by
      rw [handleMsg_no_quota config s p processed m hq, if_pos hpass]
    simp only [manageSubscrption]
    rw [if_pos h2]
    rw [handleMsg_no_quota config s p processed m hq, if_pos hpass]

def c6Config : SubjectFullConfig := ⟨0, 0, [], 102400, "go", none⟩

def c6Service : Service := ⟨[("go", Member.func CallRet.throws)]⟩

def c6Msg : Msg := ⟨"user.insert", some "reply.1", Json.null⟩

/-- Claim C6, witness: the theorem applied to a concrete binding whose
handler throws. -/
theorem c6_handler_throw_isolated_witness :
    (c6Config.dataQuota = 0 ∨ 0 ≤ c6Config.dataQuota)
    ∧ (runHooks c6Config.hooks c6Service ⟨[]⟩ c6Msg).2 = true
    ∧ c6Service.get c6Config.key = Member.func CallRet.throws
    ∧ ((handleMsg c6Config c6Service ⟨[]⟩ 0 c6Msg).1.filter Event.isErrorLog
        = [Event.logError ("subject: " ++ c6Msg.subject ++ ", method: " ++ c6Config.key)]
      ∧ (handleMsg c6Config c6Service ⟨[]⟩ 0 c6Msg).1.filter Event.isRespond
        = [Event.respond (errPayload "unknownError") c6Msg.reply.isSome]
      ∧ (handleMsg c6Config c6Service ⟨[]⟩ 0 c6Msg).2 = true
      ∧ ∀ rest : List (Nat × Msg),
          manageSubscrption c6Config c6Service ⟨[]⟩ ((0, c6Msg) :: rest)
            = (handleMsg c6Config c6Service ⟨[]⟩ 0 c6Msg).1
              ++ manageSubscrption c6Config c6Service ⟨[]⟩ rest) :=
  ⟨Or.inr (Nat.zero_le _), rfl, rfl,
    c6_handler_throw_isolated c6Config c6Service ⟨[]⟩ 0 c6Msg
      (Or.inr (Nat.zero_le _)) rfl rfl⟩

/-- Claim C7: a hook defined as a function on both the binding's sub-service
and the primary service is evaluated on the sub-service exclusively; no
chain of that binding ever calls the primary service's definition of that
name, and the chain `[hk]` does invoke the sub-service's definition. -/
theorem c7_local_hook_priority (hk : String) (s p : Service) (m : Msg)
    (r r2 : CallRet) (hl : s.get hk = Member.func r)
    (_hp : p.get hk = Member.func r2) :
    (∀ hooks : List String,
        Event.callHook false hk ∉ (runHooks hooks s p m).1)
    ∧ Event.callHook true hk ∈ (runHooks [hk] s p m).1 := by
  constructor
  · intro hooks hmem
    have := (callHook_mem_runHooks hooks s p m false hk hmem).2
    rw [hl] at this
    simp [Member.truthy] at this
  · rcases hstep : hookStep hk s p m with ⟨evs, ok⟩
    have hcall : Event.callHook true hk ∈ evs := by
      have hloc := hookStep_local_func hk s p m r hl
      rw [hstep] at hloc
      cases r with
      | sync v => by_cases hv : v.truthy = true <;> simp_all [interpret]
      | promise v => by_cases hv : v.truthy = true <;> simp_all [interpret]
      | throws => simp_all [interpret]
    cases ok <;> simp [runHooks, hstep, hcall]

def c7Service : Service := ⟨[("validate", Member.func (CallRet.sync (Json.bool true)))]⟩

def c7Primary : Service := ⟨[("validate", Member.func (CallRet.promise (Json.bool true)))]⟩

def c7Msg : Msg := ⟨"newComment", some "reply.1", Json.null⟩

/-- Claim C7, witness: `validate` defined on both owners; only the local
definition is invoked. -/
theorem c7_local_hook_priority_witness :
    c7Service.get "validate" = Member.func (CallRet.sync (Json.bool true))
    ∧ c7Primary.get "validate" = Member.func (CallRet.promise (Json.bool true))
    ∧ ((∀ hooks : List String,
          Event.callHook false "validate" ∉ (runHooks hooks c7Service c7Primary c7Msg).1)
      ∧ Event.callHook true "validate" ∈ (runHooks ["validate"] c7Service c7Primary c7Msg).1) :=
  ⟨rfl, rfl,
    c7_local_hook_priority "validate" c7Service c7Primary c7Msg
      (CallRet.sync (Json.bool true)) (CallRet.promise (Json.bool true)) rfl rfl⟩

/-- Claim C8: registering two bindings on the same subject leaves exactly
one entry in the registry — the second binding; the registry is a single
mapping keyed by subject. -/
theorem c8_last_registration_wins (s : String) (c1 c2 : SubjectConfig)
    (t1 t2 : Nat) (k1 k2 : String) :
    SUBJECT s c2 t2 k2 (SUBJECT s c1 t1 k1 [])
      = [(s, storedConfig c2 t2 k2)] := by
  simp [SUBJECT, setKey]

/-- Claim C9: constructing MicroNats a second (or any later) time returns
the first-constructed instance and leaves the static slot unchanged: the
later configuration is discarded (the instance keeps the first
configuration) and the static accessors Client and Subscriptions read that
first instance. -/
theorem c9_singleton_construction (c1 c2 : String) (st0 : GlobalState)
    (h : st0.inst = none) :
    construct c2 (construct c1 st0).2 = ((construct c1 st0).1, (construct c1 st0).2)
    ∧ ((construct c1 st0).1).conf = c1
    ∧ (construct c2 (construct c1 st0).2).2.inst = some (construct c1 st0).1
    ∧ ClientAccessor (construct c2 (construct c1 st0).2).2
        = ((construct c1 st0).1).client
    ∧ SubscriptionsAccessor (construct c2 (construct c1 st0).2).2
        = some ((construct c1 st0).1).subs := by
  simp [construct, h, ClientAccessor, SubscriptionsAccessor]

/-- Claim C9, witness: two constructions from the empty static slot with
distinct configurations. -/
theorem c9_singleton_construction_witness :
    (GlobalState.mk none).inst = none
    ∧ (construct "nats.b:4222" (construct "nats.a:4222" ⟨none⟩).2
          = ((construct "nats.a:4222" ⟨none⟩).1, (construct "nats.a:4222" ⟨none⟩).2)
      ∧ ((construct "nats.a:4222" ⟨none⟩).1).conf = "nats.a:4222"
      ∧ (construct "nats.b:4222" (construct "nats.a:4222" ⟨none⟩).2).2.inst
          = some (construct "nats.a:4222" ⟨none⟩).1
      ∧ ClientAccessor (construct "nats.b:4222" (construct "nats.a:4222" ⟨none⟩).2).2
          = ((construct "nats.a:4222" ⟨none⟩).1).client
      ∧ SubscriptionsAccessor (construct "nats.b:4222" (construct "nats.a:4222" ⟨none⟩).2).2
          = some ((construct "nats.a:4222" ⟨none⟩).1).subs) :=
  ⟨rfl, c9_singleton_construction "nats.a:4222" "nats.b:4222" ⟨none⟩ rfl⟩

/-- Claim C10: a registration whose config supplies dataQuota 0 (the falsy
number) stores the default 102400, not the supplied value: the quota cannot
be disabled through the config field. -/
theorem c10_falsy_quota_defaults (s : String) (hooks : Option (List String))
    (opts : Option Nat) (mt : Option Json) (svc : Nat) (k : String)
    (reg : Registry) :
    (SUBJECT s ⟨hooks, some 0, opts, mt⟩ svc k reg).lookup s
      = some (storedConfig ⟨hooks, some 0, opts, mt⟩ svc k)
    ∧ (storedConfig ⟨hooks, some 0, opts, mt⟩ svc k).dataQuota = 1024 * 100 :=
  ⟨lookup_setKey s _ reg, by simp [storedConfig]⟩

end MicroNats
